import Mathlib

/-!
Verification of the medical-code catalog and reimbursement rule engine:
a shallow embedding of the code index, search scoring, payment derivation,
margin classification and the NTAP/TPT program calculators, together with
theorems settling the specified properties.

Strings are modelled as lists of characters; Python numbers are modelled
as rationals (exact arithmetic), and the builtin round (banker rounding,
half to even) is modelled by pyRound below.
-/

namespace S2P

/-- ASCII lowercase of one character (Python str.lower on the ASCII range). -/
def lowerChar (c : Char) : Char :=
  if 'A' ≤ c ∧ c ≤ 'Z' then Char.ofNat (c.toNat + 32) else c

/-- ASCII uppercase of one character (Python str.upper on the ASCII range). -/
def upperChar (c : Char) : Char :=
  if 'a' ≤ c ∧ c ≤ 'z' then Char.ofNat (c.toNat - 32) else c

/-- Lowercase a string. -/
def toLowerL (s : List Char) : List Char := s.map lowerChar

/-- Uppercase a string. -/
def toUpperL (s : List Char) : List Char := s.map upperChar

/-- Whitespace characters recognised by Python str.split and str.strip. -/
def wsChar (c : Char) : Bool :=
  c = ' ' || c = '\t' || c = '\n' || c = '\r'

/-- Python str.strip: drop leading and trailing whitespace. -/
def trimL (s : List Char) : List Char :=
  ((s.dropWhile wsChar).reverse.dropWhile wsChar).reverse

/-- Helper for splitWs: accumulates the current chunk (reversed). -/
def splitWsAux : List Char → List Char → List (List Char)
  | [], acc => if acc = [] then [] else [acc.reverse]
  | c :: cs, acc =>
      if wsChar c then
        if acc = [] then splitWsAux cs []
        else acc.reverse :: splitWsAux cs []
      else splitWsAux cs (c :: acc)

/-- Python str.split with no separator: split on whitespace runs, no empty chunks. -/
def splitWs (s : List Char) : List (List Char) := splitWsAux s []

/-- Does the first list start the second (needle begins hay)? -/
def strStarts : List Char → List Char → Bool
  | [], _ => true
  | _ :: _, [] => false
  | a :: as, b :: bs => a = b && strStarts as bs

/-- Python substring membership: needle occurs contiguously inside hay. -/
def containsSub : List Char → List Char → Bool
  | hay, needle =>
    match hay with
    | [] => strStarts needle []
    | _ :: t => strStarts needle hay || containsSub t needle

/-- Python round: round half to even (banker rounding), exact on rationals. -/
def pyRound (q : ℚ) : ℤ :=
  let f := q.floor
  let r := q - (f : ℚ)
  if r < 1/2 then f
  else if 1/2 < r then f + 1
  else if f % 2 = 0 then f else f + 1

/-! ### Configuration constants (app/config/settings.py defaults) -/

def facilityConversionFactor : ℚ := 33.89

def nonFacilityConversionFactor : ℚ := 33.89

def ippsMultiplier : ℚ := 1.5

def profitableMinMargin : ℚ := 0.10

def breakEvenMinMargin : ℚ := -0.05

def ntapPercentageDefault : ℚ := 0.65

def ntapMaxCapDefault : ℚ := 150000

def ntapCostThresholdMultiplierDefault : ℚ := 1

def tptMaxPassThroughDurationDefault : ℚ := 3

/-! ### Code domain model (app/models/code.py) -/

/-- The CPT or HCPCS metadata block of one record: APC identifier,
facility and non-facility relative value units (absent values read as 0,
matching dict get with default 0). -/
structure CodeMeta where
  apc : Option Int
  facilityRVU : ℚ
  nonfacilityRVU : ℚ
deriving DecidableEq, Repr

/-- One catalog record: code, description, raw type, labels and the
metadata blocks keyed by raw type (only CPT and HCPCS are read). -/
structure CodeRecord where
  code : List Char
  description : List Char
  rawType : List Char
  labels : List (List Char)
  cptMeta : Option CodeMeta
  hcpcsMeta : Option CodeMeta
deriving DecidableEq, Repr

/-- normalized_type: empty type becomes OTHER, DX becomes ICD10,
PCS becomes ICD10-PCS, anything else is uppercased. -/
def normalizedType (t : List Char) : List Char :=
  if t = [] then "OTHER".toList
  else
    let u := toUpperL t
    if u = "DX".toList then "ICD10".toList
    else if u = "PCS".toList then "ICD10-PCS".toList
    else u

/-- metadata.get CPT or metadata.get HCPCS or empty: the CPT block wins,
then HCPCS, then an all-default block. -/
def selectMeta (r : CodeRecord) : CodeMeta :=
  match r.cptMeta with
  | some m => m
  | none =>
    match r.hcpcsMeta with
    | some m => m
    | none => ⟨none, 0, 0⟩

/-- The static APC payment-rate table (APC_RATES). -/
def apcRates (v : Int) : Option Int :=
  if v = 5193 then some 11639
  else if v = 5054 then some 2850
  else if v = 5055 then some 4200
  else if v = 5056 then some 6500
  else if v = 5183 then some 8500
  else if v = 5192 then some 9200
  else if v = 5194 then some 14500
  else none

/-- Python truthiness of the optional APC field (None and 0 are falsy). -/
def optIntTruthy (a : Option Int) : Bool :=
  match a with
  | none => false
  | some v => decide (v ≠ 0)

/-- Membership of the optional APC field in the APC rate table. -/
def inApcRates (a : Option Int) : Bool :=
  match a with
  | none => false
  | some v => (apcRates v).isSome

/-- The rate stored for the APC field (0 when absent; only used under
the membership guard). -/
def apcRateOf (a : Option Int) : Int :=
  match a with
  | none => 0
  | some v => (apcRates v).getD 0

/-- The four-site payment set; all entries are integers because every
assignment either copies an APC table value or rounds. -/
structure Payments where
  IPPS : Int
  HOPD : Int
  ASC : Int
  OBL : Int
deriving DecidableEq, Repr

/-- calculate_payments: derives the four-site payment set of a record,
mirroring the source branch for branch. -/
def calculate_payments (r : CodeRecord) : Payments :=
  let zero : Payments := ⟨0, 0, 0, 0⟩
  let t := normalizedType r.rawType
  if ¬ (t = "CPT".toList ∨ t = "HCPCS".toList) then zero
  else
    let md := selectMeta r
    let obl : Int :=
      if 0 < md.nonfacilityRVU then pyRound (md.nonfacilityRVU * nonFacilityConversionFactor)
      else 0
    let hopd : Int :=
      if optIntTruthy md.apc && inApcRates md.apc then apcRateOf md.apc
      else if 0 < md.facilityRVU then pyRound (md.facilityRVU * facilityConversionFactor * 35)
      else 0
    let asc : Int :=
      if 0 < hopd then pyRound ((hopd : ℚ) * 0.65)
      else if 0 < md.facilityRVU then pyRound (md.facilityRVU * 50 * 20)
      else 0
    let ipps : Int :=
      if 0 < hopd then pyRound ((hopd : ℚ) * ippsMultiplier)
      else if 0 < md.facilityRVU then pyRound (md.facilityRVU * facilityConversionFactor * 50)
      else 0
    ⟨ipps, hopd, asc, obl⟩

/-! ### Category derivation (app/models/code.py, category and _get_cpt_category) -/

def isUpperAlpha (c : Char) : Bool := 'A' ≤ c && c ≤ 'Z'

def isDigitC (c : Char) : Bool := '0' ≤ c && c ≤ '9'

/-- Numeric value of an all-digit string. -/
def digitsToNat (cs : List Char) : ℕ :=
  cs.foldl (fun n c => n * 10 + (c.toNat - '0'.toNat)) 0

/-- Python int applied to a code fragment: succeeds only on a nonempty
all-digit string (codes carry no sign or inner whitespace). -/
def parseIntOpt (cs : List Char) : Option ℕ :=
  if cs ≠ [] ∧ cs.all isDigitC then some (digitsToNat cs) else none

/-- Python rstrip with the uppercase alphabet: drop trailing capital letters. -/
def stripTrailingAlpha (cs : List Char) : List Char :=
  (cs.reverse.dropWhile isUpperAlpha).reverse

/-- _get_cpt_category: suffix letters F and T first, then the numeric
range buckets, with a generic CPT fallback when parsing fails. -/
def cptCategory (code : List Char) : List Char :=
  if code.getLast? = some 'F' then "Category II - Performance Measurement".toList
  else if code.getLast? = some 'T' then "Category III - Emerging Technology".toList
  else
    match parseIntOpt (stripTrailingAlpha code) with
    | none => "CPT".toList
    | some n =>
      if 10000 ≤ n ∧ n ≤ 19999 then "Integumentary System".toList
      else if 20000 ≤ n ∧ n ≤ 29999 then "Musculoskeletal System".toList
      else if 30000 ≤ n ∧ n ≤ 32999 then "Respiratory System".toList
      else if 33000 ≤ n ∧ n ≤ 37999 then "Cardiovascular System".toList
      else if 38000 ≤ n ∧ n ≤ 38999 then "Hemic and Lymphatic Systems".toList
      else if 40000 ≤ n ∧ n ≤ 49999 then "Digestive System".toList
      else if 50000 ≤ n ∧ n ≤ 53999 then "Urinary System".toList
      else if 54000 ≤ n ∧ n ≤ 55999 then "Male Genital System".toList
      else if 56000 ≤ n ∧ n ≤ 59999 then "Female Genital System".toList
      else if 60000 ≤ n ∧ n ≤ 60999 then "Endocrine System".toList
      else if 61000 ≤ n ∧ n ≤ 64999 then "Nervous System".toList
      else if 65000 ≤ n ∧ n ≤ 68999 then "Eye and Ocular Adnexa".toList
      else if 69000 ≤ n ∧ n ≤ 69999 then "Auditory System".toList
      else if 70000 ≤ n ∧ n ≤ 79999 then "Radiology".toList
      else if 80000 ≤ n ∧ n ≤ 89999 then "Pathology and Laboratory".toList
      else if 90000 ≤ n ∧ n ≤ 99999 then "Medicine".toList
      else "CPT".toList

/-- category: first label when present, else bucket by normalized type. -/
def categoryOf (r : CodeRecord) : List Char :=
  match r.labels with
  | l :: _ => l
  | [] =>
    let t := normalizedType r.rawType
    if t = "CPT".toList then cptCategory r.code
    else if t = "HCPCS".toList then "HCPCS Level II".toList
    else if t = "ICD10".toList then "ICD-10 Diagnosis".toList
    else if t = "ICD10-PCS".toList then "ICD-10 Procedure".toList
    else t

/-- Summary view of one record (to_summary). -/
structure CodeSummary where
  code : List Char
  description : List Char
  category : List Char
  typeName : List Char
  labels : List (List Char)
deriving DecidableEq, Repr

/-- _format_code_summary: Code.from_raw then to_summary, falling back to
the degraded summary when construction fails (empty code). -/
def formatCodeSummary (r : CodeRecord) : CodeSummary :=
  if r.code = [] then
    ⟨r.code, r.description,
     (match r.labels with
      | l :: _ => l
      | [] => normalizedType r.rawType),
     normalizedType r.rawType, r.labels⟩
  else
    ⟨r.code, r.description, categoryOf r, normalizedType r.rawType, r.labels⟩

/-! ### Code service state and indexes (app/services/code_service.py) -/

/-- One search-index entry: code, precomputed lowercase code-plus-description
text, normalized type. -/
structure SearchEntry where
  code : List Char
  searchText : List Char
  typeName : List Char
deriving DecidableEq, Repr

/-- The search-index entry built for one record. -/
def entryOf (r : CodeRecord) : SearchEntry :=
  ⟨r.code, toLowerL (r.code ++ ' ' :: r.description), normalizedType r.rawType⟩

/-- CodeService state: raw codes, primary index, type partition, search
index, loaded flag and error flag. -/
structure ServiceState where
  codes : List CodeRecord
  codeIndexL : List (List Char × CodeRecord)
  typeIndexL : List (List Char × List CodeRecord)
  searchIdx : List SearchEntry
  isLoaded : Bool
  loadError : Bool
deriving DecidableEq, Repr

/-- The freshly constructed service (CodeService init). -/
def initState : ServiceState := ⟨[], [], [], [], false, false⟩

/-- Primary-index lookup: later insertions win, as in a Python dict. -/
def lookupCode : List (List Char × CodeRecord) → List Char → Option CodeRecord
  | [], _ => none
  | p :: rest, c =>
    match lookupCode rest c with
    | some r => some r
    | none => if p.1 = c then some p.2 else none

/-- Append one record to its type partition, creating the partition when new. -/
def addTypeIx : List (List Char × List CodeRecord) → List Char → CodeRecord →
    List (List Char × List CodeRecord)
  | [], t, r => [(t, [r])]
  | (k, v) :: rest, t, r =>
    if k = t then (k, v ++ [r]) :: rest else (k, v) :: addTypeIx rest t r

/-- _build_indexes over a loaded code list: primary index, type partition
and search index, in catalog order. -/
def buildIndexes (codes : List CodeRecord) : ServiceState :=
  ⟨codes,
   codes.map (fun r => (r.code, r)),
   codes.foldl (fun acc r => addTypeIx acc (normalizedType r.rawType) r) [],
   codes.map entryOf,
   false, false⟩

/-- load_codes: a no-op when already loaded; otherwise reads the source
(none models an absent or malformed source, which records the error),
builds the indexes and marks the store loaded. -/
def load_codes (src : Option (List CodeRecord)) (s : ServiceState) : ServiceState :=
  if s.isLoaded then s
  else
    match src with
    | none => { s with loadError := true }
    | some recs => { buildIndexes recs with isLoaded := true, loadError := s.loadError }

/-- The statistics exposed by get_stats that the claims mention. -/
structure ServiceStats where
  totalCodes : ℕ
  isLoaded : Bool
deriving DecidableEq, Repr

/-- get_stats: totalCodes is the length of the raw code list. -/
def get_stats (s : ServiceState) : ServiceStats :=
  ⟨s.codes.length, s.isLoaded⟩

/-! ### Search scoring (search_codes) -/

/-- The per-entry score loop: the exact-match or substring base, then ten
points added for every query term contained in the entry search text. -/
def entryScore (searchTerm : List Char) (terms : List (List Char)) (e : SearchEntry) : ℕ :=
  let base : ℕ :=
    if toLowerL e.code = searchTerm then 100
    else if containsSub (toLowerL e.code) searchTerm then 80
    else 0
  terms.foldl (fun s t => if containsSub e.searchText t then s + 10 else s) base

/-- The type-filter skip: a truthy filter that differs from the entry
normalized type excludes the entry before scoring. -/
def typeSkip (codeType : Option (List Char)) (e : SearchEntry) : Bool :=
  match codeType with
  | none => false
  | some ct => if ct = [] then false else decide (e.typeName ≠ toUpperL ct)

/-- The scored candidate list, in search-index order: entries passing the
type filter whose score is positive, paired with their score. -/
def scoredResults (idx : List SearchEntry) (codeType : Option (List Char))
    (searchTerm : List Char) (terms : List (List Char)) : List (List Char × ℕ) :=
  idx.filterMap (fun item =>
    if typeSkip codeType item then none
    else
      let score := entryScore searchTerm terms item
      if 0 < score then some (item.code, score) else none)

/-- Stable descending insertion, modelling the Python stable sort by
score with reverse order: an element moves before the first strictly
smaller score, staying after equal scores seen earlier. -/
def insertScore (x : List Char × ℕ) : List (List Char × ℕ) → List (List Char × ℕ)
  | [] => [x]
  | y :: ys => if y.2 ≤ x.2 then x :: y :: ys else y :: insertScore x ys

/-- Stable sort by descending score. -/
def sortScoreDesc (l : List (List Char × ℕ)) : List (List Char × ℕ) :=
  l.foldr insertScore []

/-- The value search_codes returns: summaries, total match count, query. -/
structure SearchOut where
  codes : List CodeSummary
  total : ℕ
  query : List Char
deriving DecidableEq, Repr

/-- search_codes: short queries return empty; otherwise score every index
entry, keep positive scores, sort descending by score, truncate to the
limit and hydrate through the primary index. -/
def search_codes (s : ServiceState) (q : List Char) (limit : ℕ)
    (codeType : Option (List Char)) : SearchOut :=
  if (trimL q).length < 2 then ⟨[], 0, q⟩
  else
    let searchTerm := trimL (toLowerL q)
    let terms := splitWs searchTerm
    let results := scoredResults s.searchIdx codeType searchTerm terms
    let sorted := sortScoreDesc results
    let top := (sorted.take limit).filterMap
      (fun p => (lookupCode s.codeIndexL p.1).map formatCodeSummary)
    ⟨top, results.length, q⟩

/-! ### Margin classification (app/models/reimbursement.py) -/

inductive Classification where
  | profitable
  | breakEven
  | loss
deriving DecidableEq, Repr

/-- _classify_margin: zero total classifies by margin sign, otherwise the
margin ratio is compared with the configured thresholds. -/
def classifyMargin (margin totalPayment : ℚ) : Classification :=
  if totalPayment = 0 then
    if 0 ≤ margin then .breakEven else .loss
  else
    let marginRatio := margin / totalPayment
    if profitableMinMargin ≤ marginRatio then .profitable
    else if breakEvenMinMargin ≤ marginRatio then .breakEven
    else .loss

/-! ### NTAP and TPT program engine (app/services/ntap_tpt_service.py) -/

/-- Association lookup with default 0, Python dict get semantics
(later bindings win). -/
def assocQ : List (List Char × ℚ) → List Char → ℚ
  | [], _ => 0
  | p :: rest, c =>
    if (rest.map Prod.fst).contains c then assocQ rest c
    else if p.1 = c then p.2 else 0

/-- The NTAP reference data: the DRG base-payment table and the optional
percentage, cap and threshold-multiplier entries (settings defaults apply
when absent). -/
structure NtapData where
  drgBasePayments : List (List Char × ℚ)
  ntapPercentage : Option ℚ
  maxNtapCap : Option ℚ
  costThresholdMultiplier : Option ℚ
deriving DecidableEq, Repr

/-- The TPT reference data: the APC base-payment table and the optional
maximum pass-through duration. -/
structure TptData where
  apcBasePayments : List (List Char × ℚ)
  maxPassThroughDuration : Option ℚ
deriving DecidableEq, Repr

/-- dict get on the DRG table with an optional key (a missing key,
including None, yields 0). -/
def drgLookup (data : NtapData) (code : Option (List Char)) : ℚ :=
  match code with
  | none => 0
  | some c => assocQ data.drgBasePayments c

/-- dict get on the APC table with an optional key. -/
def apcLookupT (data : TptData) (code : Option (List Char)) : ℚ :=
  match code with
  | none => 0
  | some c => assocQ data.apcBasePayments c

/-- Python `provided or lookup`: the provided value wins unless it is
falsy (absent or zero). -/
def resolveOverride (provided : Option ℚ) (lookup : ℚ) : ℚ :=
  match provided with
  | some v => if v = 0 then lookup else v
  | none => lookup

/-- Result of calculate_ntap_payment: the structured error payload, the
not-eligible payload (payment zero), or the eligible payload with the
rounded figures the source returns. -/
inductive NtapResult where
  | error (message : List Char)
  | notEligible (deviceCost drgPayment costDifference : ℚ) (ntapPayment : Int)
  | eligible (deviceCost drgPayment costDifference ntapPercentage : ℚ)
      (calculatedNtap : Int) (maxCap : ℚ) (ntapPayment totalReimbursement : Int)
deriving DecidableEq, Repr

def deviceCostErrorMsg : List Char :=
  "Device cost is required and must be positive".toList

/-- calculate_ntap_payment: resolve the DRG payment, validate the device
cost, then either report ineligibility or the capped percentage payment. -/
def calculate_ntap_payment (data : NtapData) (deviceCost : Option ℚ)
    (drgCode : Option (List Char)) (providedDrgPayment : Option ℚ) : NtapResult :=
  let drgPayment := resolveOverride providedDrgPayment (drgLookup data drgCode)
  match deviceCost with
  | none => .error deviceCostErrorMsg
  | some dc =>
    if dc ≤ 0 then .error deviceCostErrorMsg
    else
      let ntapPercentage := data.ntapPercentage.getD ntapPercentageDefault
      let maxCap := data.maxNtapCap.getD ntapMaxCapDefault
      let costDifference := dc - drgPayment
      if costDifference ≤ 0 then .notEligible dc drgPayment costDifference 0
      else
        let calculatedNtap := costDifference * ntapPercentage
        let ntapPayment := min calculatedNtap maxCap
        .eligible dc drgPayment costDifference (ntapPercentage * 100)
          (pyRound calculatedNtap) maxCap (pyRound ntapPayment)
          (pyRound (drgPayment + ntapPayment))

/-- Result of calculate_tpt_payment: the structured error payload or the
pass-through payload with the rounded figures the source returns. -/
inductive TptResult where
  | error (message : List Char)
  | ok (deviceCost : ℚ) (apcCode : Option (List Char)) (apcPayment : ℚ)
      (packagedAmount passThroughPayment totalReimbursement : Int)
deriving DecidableEq, Repr

/-- calculate_tpt_payment: resolve the APC payment, validate the device
cost, then pay the device cost minus the ten-percent packaged portion,
floored at zero. -/
def calculate_tpt_payment (data : TptData) (deviceCost : Option ℚ)
    (apcCode : Option (List Char)) (providedPackagedPayment : Option ℚ) : TptResult :=
  let apcPayment := resolveOverride providedPackagedPayment (apcLookupT data apcCode)
  match deviceCost with
  | none => .error deviceCostErrorMsg
  | some dc =>
    if dc ≤ 0 then .error deviceCostErrorMsg
    else
      let passThroughPayment := max 0 (dc - apcPayment * 0.1)
      .ok dc apcCode apcPayment (pyRound (apcPayment * 0.1))
        (pyRound passThroughPayment) (pyRound (apcPayment + passThroughPayment))

/-! ### Eligibility checks -/

/-- One eligibility criterion as reported: name and met flag. -/
structure Criterion where
  name : List Char
  met : Bool
deriving DecidableEq, Repr

/-- The status-relevant slice of an eligibility report. -/
structure EligReport where
  status : List Char
  statusLabel : List Char
  criteria : List Criterion
  criteriaMetCount : ℕ
  totalCriteria : ℕ
deriving DecidableEq, Repr

/-- Inputs of check_ntap_eligibility: the device cost, the optional DRG
code, the age in years of the FDA approval relative to now (the date
arithmetic is summarised by this one number), and the claimed clinical
improvements. -/
structure NtapEligParams where
  deviceCost : ℚ
  drgCode : Option (List Char)
  yearsOld : ℚ
  clinicalImprovements : List (List Char)
deriving DecidableEq, Repr

def clinicalCategories : List (List Char) :=
  ["Reduced mortality".toList, "Reduced complications".toList,
   "Reduced hospital stay".toList, "Improved patient outcomes".toList,
   "Reduced readmissions".toList, "Treatment for unmet need".toList]

def statusLabelOf (status : List Char) : List Char :=
  if status = "likely_eligible".toList then "Likely Eligible".toList
  else if status = "needs_review".toList then "Needs Review".toList
  else "Not Eligible".toList

/-- check_ntap_eligibility: the four criteria evaluated in source order,
the always-true not-in-current-weights criterion setting the review flag,
and the overall status derived from the eligibility and review flags. -/
def check_ntap_eligibility (data : NtapData) (p : NtapEligParams) : EligReport :=
  let newnessMet := decide (p.yearsOld ≤ 3)
  let overallEligible1 := true && newnessMet
  let drgPayment := drgLookup data p.drgCode
  let costThresholdMultiplier :=
    data.costThresholdMultiplier.getD ntapCostThresholdMultiplierDefault
  let costThreshold := drgPayment * costThresholdMultiplier
  let costMet := decide (costThreshold < p.deviceCost)
  let overallEligible2 := overallEligible1 && costMet
  let notInWeightsMet := true
  let needsReview1 := true
  let validImprovements := p.clinicalImprovements.filter (fun imp =>
    clinicalCategories.any (fun cat =>
      containsSub (toLowerL imp) (toLowerL cat) || containsSub (toLowerL cat) (toLowerL imp)))
  let clinicalMet := decide (0 < validImprovements.length)
  let needsReview2 := if clinicalMet then needsReview1 else true
  let criteria : List Criterion :=
    [⟨"Newness".toList, newnessMet⟩,
     ⟨"Cost Threshold".toList, costMet⟩,
     ⟨"Not in Current Weights".toList, notInWeightsMet⟩,
     ⟨"Substantial Clinical Improvement".toList, clinicalMet⟩]
  let status :=
    if overallEligible2 && !needsReview2 then "likely_eligible".toList
    else if overallEligible2 || needsReview2 then "needs_review".toList
    else "not_eligible".toList
  ⟨status, statusLabelOf status, criteria,
   (criteria.filter (fun c => c.met)).length, criteria.length⟩

/-- Inputs of check_tpt_eligibility. -/
structure TptEligParams where
  deviceCost : ℚ
  apcCode : Option (List Char)
  yearsOld : ℚ
  category : List Char
deriving DecidableEq, Repr

/-- check_tpt_eligibility: newness, category membership, cost
significance, and the always-true not-packaged criterion setting the
review flag, with the same status derivation as NTAP. -/
def check_tpt_eligibility (data : TptData) (p : TptEligParams) : EligReport :=
  let maxDuration := data.maxPassThroughDuration.getD tptMaxPassThroughDurationDefault
  let newnessMet := decide (p.yearsOld ≤ maxDuration)
  let overallEligible1 := true && newnessMet
  let validCategories := ["device".toList, "drug".toList, "biological".toList]
  let categoryMet := validCategories.any (fun v => toLowerL p.category = v)
  let overallEligible2 := overallEligible1 && categoryMet
  let apcPayment := apcLookupT data p.apcCode
  let costSignificant := decide (0 < apcPayment) && decide (apcPayment * 0.15 < p.deviceCost)
  let needsReview1 := if costSignificant then false else true
  let notPackagedMet := true
  let needsReview2 := needsReview1 || true  -- the source reassigns the flag to True here
  let criteria : List Criterion :=
    [⟨"Newness".toList, newnessMet⟩,
     ⟨"Eligible Category".toList, categoryMet⟩,
     ⟨"Cost Significance".toList, costSignificant⟩,
     ⟨"Not Packaged".toList, notPackagedMet⟩]
  let status :=
    if overallEligible2 && !needsReview2 then "likely_eligible".toList
    else if overallEligible2 || needsReview2 then "needs_review".toList
    else "not_eligible".toList
  ⟨status, statusLabelOf status, criteria,
   (criteria.filter (fun c => c.met)).length, criteria.length⟩

/-! ### Helper lemmas -/

attribute [local semireducible] Rat.mul Rat.add Rat.sub Rat.inv Rat.ofScientific

/-- Truthiness of the APC field is subsumed by table membership, because
zero is not a key of the APC table. -/
lemma truthy_and_inApcRates (a : Option Int) :
    (optIntTruthy a && inApcRates a) = inApcRates a := by
  cases a with
  | none => rfl
  | some v =>
    rcases eq_or_ne v 0 with rfl | hv
    · decide
    · simp [optIntTruthy, hv]

/-- The branch characterization of calculate_payments shared by the
payment claims. -/
lemma calculate_payments_char (r : CodeRecord)
    (h : normalizedType r.rawType = "CPT".toList ∨ normalizedType r.rawType = "HCPCS".toList) :
    (calculate_payments r).OBL =
      (if 0 < (selectMeta r).nonfacilityRVU
       then pyRound ((selectMeta r).nonfacilityRVU * nonFacilityConversionFactor) else 0) ∧
    (calculate_payments r).HOPD =
      (if inApcRates (selectMeta r).apc then apcRateOf (selectMeta r).apc
       else if 0 < (selectMeta r).facilityRVU
       then pyRound ((selectMeta r).facilityRVU * facilityConversionFactor * 35) else 0) ∧
    (calculate_payments r).ASC =
      (if 0 < (calculate_payments r).HOPD
       then pyRound (((calculate_payments r).HOPD : ℚ) * 0.65)
       else if 0 < (selectMeta r).facilityRVU
       then pyRound ((selectMeta r).facilityRVU * 50 * 20) else 0) ∧
    (calculate_payments r).IPPS =
      (if 0 < (calculate_payments r).HOPD
       then pyRound (((calculate_payments r).HOPD : ℚ) * ippsMultiplier)
       else if 0 < (selectMeta r).facilityRVU
       then pyRound ((selectMeta r).facilityRVU * facilityConversionFactor * 50) else 0) := by
  have hcond : ¬ ¬ (normalizedType r.rawType = "CPT".toList ∨
      normalizedType r.rawType = "HCPCS".toList) := not_not.mpr h
  refine ⟨?_, ?_, ?_, ?_⟩ <;>
    simp only [calculate_payments, hcond, if_false, not_false_eq_true, if_true,
      truthy_and_inApcRates, ite_not]

/-! ### Claim theorems -/

/-- C1: for every CPT or HCPCS record the payment derivation yields, in
branch order: OBL from the non-facility RVU when positive else 0; HOPD
from the static APC table when the APC identifier is a key, else the
facility RVU times the facility conversion factor times 35 when the
facility RVU is positive, else 0; ASC as 65 percent of HOPD when HOPD is
positive, else facility RVU times 50 times 20 when positive, else 0; IPPS
as HOPD times the configured IPPS multiplier when HOPD is positive, else
facility RVU times the facility conversion factor times 50 when positive,
else 0 (all products rounded half to even). -/
theorem payments_branch_order (r : CodeRecord)
    (h : normalizedType r.rawType = "CPT".toList ∨ normalizedType r.rawType = "HCPCS".toList) :
    (calculate_payments r).OBL =
      (if 0 < (selectMeta r).nonfacilityRVU
       then pyRound ((selectMeta r).nonfacilityRVU * nonFacilityConversionFactor) else 0) ∧
    (calculate_payments r).HOPD =
      (if inApcRates (selectMeta r).apc then apcRateOf (selectMeta r).apc
       else if 0 < (selectMeta r).facilityRVU
       then pyRound ((selectMeta r).facilityRVU * facilityConversionFactor * 35) else 0) ∧
    (calculate_payments r).ASC =
      (if 0 < (calculate_payments r).HOPD
       then pyRound (((calculate_payments r).HOPD : ℚ) * 0.65)
       else if 0 < (selectMeta r).facilityRVU
       then pyRound ((selectMeta r).facilityRVU * 50 * 20) else 0) ∧
    (calculate_payments r).IPPS =
      (if 0 < (calculate_payments r).HOPD
       then pyRound (((calculate_payments r).HOPD : ℚ) * ippsMultiplier)
       else if 0 < (selectMeta r).facilityRVU
       then pyRound ((selectMeta r).facilityRVU * facilityConversionFactor * 50) else 0) :=
  calculate_payments_char r h

/-- A CPT record with an APC key in the static table, used as witness input. -/
def recC1W : CodeRecord :=
  ⟨"99213".toList, "Office visit".toList, "CPT".toList, [], some ⟨some 5193, 1, 2⟩, none⟩

theorem payments_branch_order_witness :
    (normalizedType recC1W.rawType = "CPT".toList ∨
      normalizedType recC1W.rawType = "HCPCS".toList) ∧
    (calculate_payments recC1W).HOPD = 11639 ∧ (calculate_payments recC1W).ASC = 7565 := by
  refine ⟨Or.inl (by decide), ?_, ?_⟩
  · rw [(payments_branch_order recC1W (Or.inl (by decide))).2.1]; decide
  · rw [(payments_branch_order recC1W (Or.inl (by decide))).2.2.1]; decide

/-- A CPT record with facility RVU 1, no APC match and no non-facility
RVU, used as counterexample input for C2. -/
def recC2 : CodeRecord :=
  ⟨"10040".toList, "Acne surgery".toList, "CPT".toList, [], some ⟨none, 1, 0⟩, none⟩

/-- C2 counterexample: on a CPT record with facility RVU 1, no APC match
and zero non-facility RVU, the claimed value set is wrong: the code
yields ASC 771 and IPPS 1779 (65 percent and 1.5 times the rounded HOPD
1186), not round(1x50x20) = 1000 and round(1x33.89x50) = 1694 as the
claim predicts when HOPD is positive. -/
theorem payments_fallback_cex :
    ¬ ((calculate_payments recC2).OBL = 0 ∧
       (calculate_payments recC2).HOPD = pyRound ((selectMeta recC2).facilityRVU * 33.89 * 35) ∧
       (calculate_payments recC2).ASC = pyRound ((selectMeta recC2).facilityRVU * 50 * 20) ∧
       (calculate_payments recC2).IPPS = pyRound ((selectMeta recC2).facilityRVU * 33.89 * 50)) := by
  decide

/-- C2 amended: for a CPT record with positive facility RVU, no APC match
and zero non-facility RVU, OBL is 0 and HOPD is round(facilityRVU x 33.89
x 35); the claimed ASC and IPPS fallback formulas apply only when that
HOPD is not positive, otherwise ASC = round(HOPD x 0.65) and IPPS =
round(HOPD x 1.5). -/
theorem payments_fallback_amended (r : CodeRecord)
    (ht : normalizedType r.rawType = "CPT".toList)
    (hapc : inApcRates (selectMeta r).apc = false)
    (hf : 0 < (selectMeta r).facilityRVU)
    (hnf : (selectMeta r).nonfacilityRVU = 0) :
    (calculate_payments r).OBL = 0 ∧
    (calculate_payments r).HOPD = pyRound ((selectMeta r).facilityRVU * 33.89 * 35) ∧
    (calculate_payments r).ASC =
      (if 0 < (calculate_payments r).HOPD
       then pyRound (((calculate_payments r).HOPD : ℚ) * 0.65)
       else pyRound ((selectMeta r).facilityRVU * 50 * 20)) ∧
    (calculate_payments r).IPPS =
      (if 0 < (calculate_payments r).HOPD
       then pyRound (((calculate_payments r).HOPD : ℚ) * 1.5)
       else pyRound ((selectMeta r).facilityRVU * 33.89 * 50)) := by
  obtain ⟨hOBL, hHOPD, hASC, hIPPS⟩ := calculate_payments_char r (Or.inl ht)
  refine ⟨?_, ?_, ?_, ?_⟩
  · rw [hOBL, hnf]; simp
  · rw [hHOPD, hapc]
    simp [hf, facilityConversionFactor]
  · rw [hASC]
    by_cases hh : 0 < (calculate_payments r).HOPD <;> simp [hh, hf]
  · rw [hIPPS]
    by_cases hh : 0 < (calculate_payments r).HOPD <;>
      simp [hh, hf, ippsMultiplier, facilityConversionFactor]

theorem payments_fallback_witness :
    normalizedType recC2.rawType = "CPT".toList ∧
    (calculate_payments recC2).HOPD = 1186 ∧ (calculate_payments recC2).ASC = 771 := by
  have h := payments_fallback_amended recC2 (by decide) (by decide) (by decide) (by decide)
  refine ⟨by decide, ?_, ?_⟩
  · rw [h.2.1]; decide
  · rw [h.2.2.1]; decide

/-- C3: margin classification: with zero total payment the scenario is
break-even exactly when the margin is non-negative, else a loss; with
positive total the margin ratio classifies as profitable when at least
0.10 (inclusive), break-even when at least -0.05 (inclusive) and below
0.10, else a loss; in particular at total 1000 a margin of 100 is
profitable, 99 and -50 are break-even, and -51 is a loss. -/
theorem classify_margin_spec (margin total : ℚ) :
    (total = 0 →
      classifyMargin margin total = (if 0 ≤ margin then .breakEven else .loss)) ∧
    (0 < total →
      classifyMargin margin total =
        (if (0.10 : ℚ) ≤ margin / total then .profitable
         else if (-0.05 : ℚ) ≤ margin / total then .breakEven
         else .loss)) ∧
    classifyMargin 100 1000 = .profitable ∧
    classifyMargin 99 1000 = .breakEven ∧
    classifyMargin (-50) 1000 = .breakEven ∧
    classifyMargin (-51) 1000 = .loss := by
  refine ⟨?_, ?_, by decide, by decide, by decide, by decide⟩
  · intro h; simp [classifyMargin, h]
  · intro h
    simp [classifyMargin, ne_of_gt h, profitableMinMargin, breakEvenMinMargin]

theorem classify_margin_witness :
    (0 : ℚ) < 1000 ∧ classifyMargin 99 1000 = .breakEven := by
  refine ⟨by norm_num, ?_⟩
  rw [(classify_margin_spec 99 1000).2.1 (by norm_num)]
  decide

/-- C4: for every NTAP payment calculation with positive device cost,
with the DRG payment resolved from the explicit override or the static
table (default 0): a non-positive cost difference yields a not-eligible
result with payment 0, otherwise an eligible result whose payment is
min(costDifference x ntapPercentage, maxCap), rounded to whole currency;
in particular device cost 100000 with DRG payment 40000, percentage 0.65
and cap 150000 yields cost difference 60000, calculated NTAP 39000 and
payment 39000 with eligible status. -/
theorem ntap_payment_spec (data : NtapData) (dc : ℚ) (drgCode : Option (List Char))
    (pd : Option ℚ) (hdc : 0 < dc) :
    (dc - resolveOverride pd (drgLookup data drgCode) ≤ 0 →
      calculate_ntap_payment data (some dc) drgCode pd =
        .notEligible dc (resolveOverride pd (drgLookup data drgCode))
          (dc - resolveOverride pd (drgLookup data drgCode)) 0) ∧
    (0 < dc - resolveOverride pd (drgLookup data drgCode) →
      calculate_ntap_payment data (some dc) drgCode pd =
        .eligible dc (resolveOverride pd (drgLookup data drgCode))
          (dc - resolveOverride pd (drgLookup data drgCode))
          (data.ntapPercentage.getD 0.65 * 100)
          (pyRound ((dc - resolveOverride pd (drgLookup data drgCode)) *
            data.ntapPercentage.getD 0.65))
          (data.maxNtapCap.getD 150000)
          (pyRound (min ((dc - resolveOverride pd (drgLookup data drgCode)) *
            data.ntapPercentage.getD 0.65) (data.maxNtapCap.getD 150000)))
          (pyRound (resolveOverride pd (drgLookup data drgCode) +
            min ((dc - resolveOverride pd (drgLookup data drgCode)) *
              data.ntapPercentage.getD 0.65) (data.maxNtapCap.getD 150000)))) ∧
    calculate_ntap_payment ⟨[], none, none, none⟩ (some 100000) none (some 40000) =
      .eligible 100000 40000 60000 65 39000 150000 39000 79000 := by
  refine ⟨?_, ?_, by decide⟩
  · intro h
    simp [calculate_ntap_payment, not_lt.mpr hdc.le, h, not_le.mpr hdc]
  · intro h
    simp [calculate_ntap_payment, not_le.mpr hdc, not_le.mpr h,
      ntapPercentageDefault, ntapMaxCapDefault]

theorem ntap_payment_witness :
    (0 : ℚ) < 100000 ∧
    calculate_ntap_payment ⟨[], none, none, none⟩ (some 100000) none (some 40000) =
      .eligible 100000 40000 60000 65 39000 150000 39000 79000 := by
  refine ⟨by norm_num, ?_⟩
  exact (ntap_payment_spec ⟨[], none, none, none⟩ 100000 none (some 40000)
    (by norm_num)).2.2

/-- C5: every NTAP eligibility check and every TPT eligibility check
reports overall status needs_review, because the always-true criterion
(not in current weights for NTAP, not packaged for TPT) unconditionally
sets the review flag before the status is derived; the statuses
likely_eligible and not_eligible are unreachable. -/
theorem eligibility_always_needs_review (nd : NtapData) (np : NtapEligParams)
    (td : TptData) (tp : TptEligParams) :
    (check_ntap_eligibility nd np).status = "needs_review".toList ∧
    (check_tpt_eligibility td tp).status = "needs_review".toList := by
  constructor
  · simp [check_ntap_eligibility]
  · simp [check_tpt_eligibility]

/-- C8: for every TPT payment calculation with positive device cost, with
the APC payment resolved from the explicit override or the static table
(default 0), the pass-through payment is the device cost minus the fixed
ten-percent packaged portion of the APC payment, floored at 0 and rounded
to whole currency. -/
theorem tpt_payment_spec (data : TptData) (dc : ℚ) (apcCode : Option (List Char))
    (provided : Option ℚ) (h : 0 < dc) :
    calculate_tpt_payment data (some dc) apcCode provided =
      .ok dc apcCode (resolveOverride provided (apcLookupT data apcCode))
        (pyRound (resolveOverride provided (apcLookupT data apcCode) * 0.1))
        (pyRound (max 0 (dc - resolveOverride provided (apcLookupT data apcCode) * 0.1)))
        (pyRound (resolveOverride provided (apcLookupT data apcCode) +
          max 0 (dc - resolveOverride provided (apcLookupT data apcCode) * 0.1))) := by
  simp [calculate_tpt_payment, not_le.mpr h]

theorem tpt_payment_witness :
    (0 : ℚ) < 5000 ∧
    calculate_tpt_payment ⟨[], none⟩ (some 5000) none (some 2850) =
      .ok 5000 none 2850 285 4715 7565 := by
  refine ⟨by norm_num, ?_⟩
  rw [tpt_payment_spec ⟨[], none⟩ 5000 none (some 2850) (by norm_num)]
  decide

/-- C9: when the device cost is missing, zero or negative, both the NTAP
and the TPT payment calculations return the structured error payload with
its message, instead of raising. -/
theorem device_cost_error_spec (nd : NtapData) (td : TptData)
    (drgCode apcCode : Option (List Char)) (pd pp : Option ℚ) (dc : Option ℚ)
    (h : dc = none ∨ ∃ v, dc = some v ∧ v ≤ 0) :
    calculate_ntap_payment nd dc drgCode pd = .error deviceCostErrorMsg ∧
    calculate_tpt_payment td dc apcCode pp = .error deviceCostErrorMsg := by
  rcases h with rfl | ⟨v, rfl, hv⟩
  · exact ⟨rfl, rfl⟩
  · constructor
    · simp [calculate_ntap_payment, hv]
    · simp [calculate_tpt_payment, hv]

theorem device_cost_error_witness :
    ((none : Option ℚ) = none ∨ ∃ v, (none : Option ℚ) = some v ∧ v ≤ 0) ∧
    calculate_ntap_payment ⟨[], none, none, none⟩ none none none = .error deviceCostErrorMsg ∧
    calculate_tpt_payment ⟨[], none⟩ none none none = .error deviceCostErrorMsg :=
  ⟨Or.inl rfl,
   device_cost_error_spec ⟨[], none, none, none⟩ ⟨[], none⟩ none none none none none
     (Or.inl rfl)⟩

/-- C10: a second call of the load step on an already-loaded store is a
no-op: the state, in particular the primary index and the totalCodes
statistic, is returned unchanged; consequently loading twice from a fresh
store equals loading once. -/
theorem load_codes_idempotent (src srcB : Option (List CodeRecord))
    (recs : List CodeRecord) (s : ServiceState) (h : s.isLoaded = true) :
    load_codes src s = s ∧
    (load_codes src s).codeIndexL = s.codeIndexL ∧
    (get_stats (load_codes src s)).totalCodes = (get_stats s).totalCodes ∧
    load_codes srcB (load_codes (some recs) initState) = load_codes (some recs) initState := by
  refine ⟨?_, ?_, ?_, ?_⟩ <;> simp [load_codes, h, initState, buildIndexes]

theorem load_codes_idempotent_witness :
    (load_codes (some [recC1W]) initState).isLoaded = true ∧
    load_codes none (load_codes (some [recC1W]) initState) =
      load_codes (some [recC1W]) initState ∧
    (get_stats (load_codes none (load_codes (some [recC1W]) initState))).totalCodes =
      (get_stats (load_codes (some [recC1W]) initState)).totalCodes := by
  have h := load_codes_idempotent none none [recC1W]
    (load_codes (some [recC1W]) initState) (by decide)
  exact ⟨by decide, h.1, h.2.2.1⟩

/-! ### Lemmas about substring containment and whitespace splitting -/

lemma foldl_score (p : List Char → Bool) (l : List (List Char)) (a : ℕ) :
    l.foldl (fun s t => if p t then s + 10 else s) a = a + 10 * (l.filter p).length := by
  induction l generalizing a with
  | nil => simp
  | cons hd tl ih =>
    simp only [List.foldl_cons, List.filter_cons]
    by_cases hp : p hd
    · rw [if_pos hp, if_pos hp, ih]
      simp only [List.length_cons]
      omega
    · rw [if_neg hp, if_neg hp, ih]

/-- The per-entry score equals the code-match base plus ten points per
matching term. -/
lemma entryScore_eq (searchTerm : List Char) (terms : List (List Char)) (e : SearchEntry) :
    entryScore searchTerm terms e =
      (if toLowerL e.code = searchTerm then 100
       else if containsSub (toLowerL e.code) searchTerm then 80 else 0) +
      10 * (terms.filter (fun t => containsSub e.searchText t)).length := by
  unfold entryScore
  exact foldl_score _ terms _

lemma strStarts_refl (s : List Char) : strStarts s s = true := by
  induction s with
  | nil => rfl
  | cons c t ih => simp [strStarts, ih]

lemma strStarts_append (t s u : List Char) (h : strStarts t s = true) :
    strStarts t (s ++ u) = true := by
  induction t generalizing s with
  | nil => rfl
  | cons a as ih =>
    cases s with
    | nil => simp [strStarts] at h
    | cons b bs =>
      simp only [strStarts, Bool.and_eq_true, decide_eq_true_eq, List.cons_append] at h ⊢
      exact ⟨h.1, ih bs h.2⟩

lemma containsSub_nil (u : List Char) : containsSub u [] = true := by
  cases u <;> simp [containsSub, strStarts]

lemma containsSub_of_starts (s t : List Char) (h : strStarts t s = true) :
    containsSub s t = true := by
  cases s with
  | nil => simpa [containsSub] using h
  | cons c cs => simp [containsSub, h]

lemma containsSub_append_right (s u t : List Char) (h : containsSub s t = true) :
    containsSub (s ++ u) t = true := by
  induction s with
  | nil =>
    simp only [containsSub] at h
    cases t with
    | nil => exact containsSub_nil u
    | cons a as => simp [strStarts] at h
  | cons c cs ih =>
    simp only [containsSub, Bool.or_eq_true, List.cons_append] at h ⊢
    rcases h with h | h
    · exact Or.inl (strStarts_append t (c :: cs) u h)
    · exact Or.inr (ih h)

lemma containsSub_append_left (u s t : List Char) (h : containsSub s t = true) :
    containsSub (u ++ s) t = true := by
  induction u with
  | nil => exact h
  | cons c cs ih => simp [containsSub, ih]

/-- Every chunk produced by the whitespace splitter occurs contiguously
in the accumulated input. -/
lemma splitWsAux_sub (t : List Char) :
    ∀ (cs acc : List Char), t ∈ splitWsAux cs acc →
      containsSub (acc.reverse ++ cs) t = true := by
  intro cs
  induction cs with
  | nil =>
    intro acc h
    rw [splitWsAux] at h
    split at h
    · simp at h
    · simp only [List.mem_singleton] at h
      subst h
      simpa using containsSub_of_starts acc.reverse acc.reverse (strStarts_refl acc.reverse)
  | cons c cs ih =>
    intro acc h
    rw [splitWsAux] at h
    by_cases hw : wsChar c
    · rw [if_pos hw] at h
      by_cases ha : acc = []
      · rw [if_pos ha] at h
        subst ha
        simpa using containsSub_append_left [c] cs t (by simpa using ih [] h)
      · rw [if_neg ha] at h
        rcases List.mem_cons.mp h with rfl | h
        · exact containsSub_append_right acc.reverse (c :: cs) acc.reverse
            (containsSub_of_starts acc.reverse acc.reverse (strStarts_refl acc.reverse))
        · have h1 := containsSub_append_left (acc.reverse ++ [c]) cs t (by simpa using ih [] h)
          simpa [List.append_assoc] using h1
    · rw [if_neg hw] at h
      have h1 := ih (c :: acc) h
      simpa [List.append_assoc] using h1

/-- Every whitespace-separated term of a string is a substring of it. -/
lemma splitWs_sub (s t : List Char) (h : t ∈ splitWs s) : containsSub s t = true := by
  simpa using splitWsAux_sub t s [] h

/-! ### Lemmas about the stable descending sort and lookups -/

lemma mem_insertScore (x y : List Char × ℕ) (l : List (List Char × ℕ)) :
    y ∈ insertScore x l ↔ y = x ∨ y ∈ l := by
  induction l with
  | nil => simp [insertScore]
  | cons z zs ih =>
    simp only [insertScore]
    split
    · simp [List.mem_cons]
    · simp only [List.mem_cons, ih]
      tauto

lemma sorted_insertScore (x : List Char × ℕ) (l : List (List Char × ℕ))
    (hl : l.Pairwise (fun a b => b.2 ≤ a.2)) :
    (insertScore x l).Pairwise (fun a b => b.2 ≤ a.2) := by
  induction l with
  | nil => simp [insertScore]
  | cons z zs ih =>
    rw [List.pairwise_cons] at hl
    simp only [insertScore]
    split
    · next hz =>
      rw [List.pairwise_cons]
      refine ⟨?_, List.pairwise_cons.mpr ⟨hl.1, hl.2⟩⟩
      intro a ha
      rcases List.mem_cons.mp ha with rfl | ha
      · exact hz
      · exact le_trans (hl.1 a ha) hz
    · next hz =>
      rw [List.pairwise_cons]
      refine ⟨?_, ih hl.2⟩
      intro a ha
      rcases (mem_insertScore x a zs).mp ha with rfl | ha
      · omega
      · exact hl.1 a ha

lemma sorted_sortScoreDesc (l : List (List Char × ℕ)) :
    (sortScoreDesc l).Pairwise (fun a b => b.2 ≤ a.2) := by
  induction l with
  | nil => simp [sortScoreDesc]
  | cons x xs ih => exact sorted_insertScore x _ ih

lemma mem_sortScoreDesc (y : List Char × ℕ) (l : List (List Char × ℕ)) :
    y ∈ sortScoreDesc l ↔ y ∈ l := by
  induction l with
  | nil => simp [sortScoreDesc]
  | cons x xs ih =>
    rw [sortScoreDesc, List.foldr_cons, mem_insertScore]
    rw [sortScoreDesc] at ih
    rw [ih, List.mem_cons]

/-- The stable descending sort starts with the element that strictly
dominates every other element of the list. -/
lemma head_sortScoreDesc (l : List (List Char × ℕ)) (m : List Char × ℕ)
    (hm : m ∈ l) (hmax : ∀ p ∈ l, p ≠ m → p.2 < m.2) :
    (sortScoreDesc l).head? = some m := by
  cases hs : sortScoreDesc l with
  | nil =>
    exfalso
    have h1 := (mem_sortScoreDesc m l).mpr hm
    rw [hs] at h1
    simp at h1
  | cons h tl =>
    have hsort := sorted_sortScoreDesc l
    rw [hs, List.pairwise_cons] at hsort
    have hhl : h ∈ l := by
      have h2 : h ∈ sortScoreDesc l := by
        rw [hs]; exact List.mem_cons_self h tl
      exact (mem_sortScoreDesc h l).mp h2
    have hml : m ∈ sortScoreDesc l := (mem_sortScoreDesc m l).mpr hm
    rw [hs] at hml
    rcases List.mem_cons.mp hml with rfl | hmtl
    · rfl
    · by_cases hhm : h = m
      · subst hhm; rfl
      · exfalso
        have h1 := hmax h hhl hhm
        have h2 := hsort.1 m hmtl
        omega

lemma head_take {α : Type _} (l : List α) (n : ℕ) (hn : 0 < n) :
    (l.take n).head? = l.head? := by
  cases l with
  | nil => simp
  | cons x xs =>
    cases n with
    | zero => omega
    | succ k => simp

lemma head_filterMap {α β : Type _} (f : α → Option β) (l : List α) (m : α) (y : β)
    (hl : l.head? = some m) (hf : f m = some y) : (l.filterMap f).head? = some y := by
  cases l with
  | nil => simp at hl
  | cons x xs =>
    simp only [List.head?_cons, Option.some.injEq] at hl
    subst hl
    simp [List.filterMap_cons, hf]

lemma lookupCode_eq_none (l : List (List Char × CodeRecord)) (c : List Char)
    (h : ∀ p ∈ l, p.1 ≠ c) : lookupCode l c = none := by
  induction l with
  | nil => rfl
  | cons p rest ih =>
    simp only [lookupCode]
    rw [ih (fun q hq => h q (List.mem_cons_of_mem p hq))]
    simp [h p (List.mem_cons_self p rest)]

/-- The primary index resolves a code to its unique record. -/
lemma lookupCode_map_eq (catalog : List CodeRecord) (r : CodeRecord)
    (hr : r ∈ catalog) (huniq : ∀ x ∈ catalog, x.code = r.code → x = r) :
    lookupCode (catalog.map fun x => (x.code, x)) r.code = some r := by
  induction catalog with
  | nil => simp at hr
  | cons x rest ih =>
    simp only [List.map_cons, lookupCode]
    by_cases hrr : r ∈ rest
    · rw [ih hrr (fun y hy hc => huniq y (List.mem_cons_of_mem x hy) hc)]
    · have hx : x = r := by
        rcases List.mem_cons.mp hr with rfl | h
        · rfl
        · exact absurd h hrr
      have hnone : lookupCode (rest.map fun y => (y.code, y)) r.code = none := by
        apply lookupCode_eq_none
        intro p hp
        rcases List.mem_map.mp hp with ⟨y, hy, rfl⟩
        intro hc
        exact hrr (huniq y (List.mem_cons_of_mem x hy) hc ▸ hy)
      rw [hnone]
      subst hx
      simp

/-- C6: with a trimmed query of length at least two, every search-index
entry scores 100 for an exact case-insensitive code match (not summed
with the 80-point substring rule), else 80 when the code contains the
query, else 0, plus 10 for each whitespace-separated query term contained
in the entry search text; and the scored result list contains exactly the
entries with positive score. -/
theorem search_scoring_spec (idx : List SearchEntry) (q : List Char) (e : SearchEntry)
    (_h2 : 2 ≤ (trimL q).length) :
    (entryScore (trimL (toLowerL q)) (splitWs (trimL (toLowerL q))) e =
      (if toLowerL e.code = trimL (toLowerL q) then 100
       else if containsSub (toLowerL e.code) (trimL (toLowerL q)) then 80 else 0) +
      10 * ((splitWs (trimL (toLowerL q))).filter
        (fun t => containsSub e.searchText t)).length) ∧
    (∀ p ∈ scoredResults idx none (trimL (toLowerL q)) (splitWs (trimL (toLowerL q))),
      0 < p.2) ∧
    (e ∈ idx → 0 < entryScore (trimL (toLowerL q)) (splitWs (trimL (toLowerL q))) e →
      (e.code, entryScore (trimL (toLowerL q)) (splitWs (trimL (toLowerL q))) e) ∈
        scoredResults idx none (trimL (toLowerL q)) (splitWs (trimL (toLowerL q)))) := by
  refine ⟨entryScore_eq _ _ _, ?_, ?_⟩
  · intro p hp
    rw [scoredResults, List.mem_filterMap] at hp
    obtain ⟨a, ha, hfa⟩ := hp
    simp only [typeSkip, if_false, Bool.false_eq_true] at hfa
    split at hfa
    · next h0 =>
      cases hfa
      exact h0
    · simp at hfa
  · intro he hpos
    rw [scoredResults, List.mem_filterMap]
    exact ⟨e, he, by simp [typeSkip, hpos]⟩

/-- The record with exact code 99213, used in the search claims. -/
def rec99213 : CodeRecord :=
  ⟨"99213".toList, "Office outpatient visit".toList, "CPT".toList, [], none, none⟩

theorem search_scoring_witness :
    2 ≤ (trimL "99213".toList).length ∧
    entryScore (trimL (toLowerL "99213".toList)) (splitWs (trimL (toLowerL "99213".toList)))
      (entryOf rec99213) = 110 := by
  refine ⟨by decide, ?_⟩
  rw [(search_scoring_spec [entryOf rec99213] "99213".toList (entryOf rec99213)
    (by decide)).1]
  decide

/-- C7 counterexample: searching the query 99213 over a catalog holding
the exact code 99213 assigns that entry score 110, not exactly 100: the
exact-match base 100 also receives the ten-point term bonus because the
query term occurs in the entry search text. -/
theorem search_exact_score_cex :
    scoredResults (load_codes (some [rec99213]) initState).searchIdx none
        (trimL (toLowerL "99213".toList)) (splitWs (trimL (toLowerL "99213".toList))) =
      [("99213".toList, 110)] ∧ (110 : ℕ) ≠ 100 := by
  constructor
  · decide
  · decide

/-- C7 amended: for every catalog containing a record whose lowercased
code equals the lowercased trimmed query, unique in this respect, and a
positive result limit, search returns that record first; its assigned
score is 100 plus 10 for every whitespace-separated query term (all of
which match its search text), hence 110 for the single-term query 99213,
never exactly 100. -/
theorem search_exact_first_amended (catalog : List CodeRecord) (q sTerm : List Char)
    (limit : ℕ) (r : CodeRecord)
    (hs : sTerm = trimL (toLowerL q))
    (hq : 2 ≤ (trimL q).length)
    (hlim : 0 < limit)
    (hr : r ∈ catalog)
    (hmatch : toLowerL r.code = sTerm)
    (huniq : ∀ x ∈ catalog, toLowerL x.code = sTerm → x = r) :
    entryScore sTerm (splitWs sTerm) (entryOf r) =
      100 + 10 * (splitWs sTerm).length ∧
    (search_codes (load_codes (some catalog) initState) q limit none).codes.head? =
      some (formatCodeSummary r) := by
  have hscore : entryScore sTerm (splitWs sTerm) (entryOf r) =
      100 + 10 * (splitWs sTerm).length := by
    rw [entryScore_eq]
    have hcode : toLowerL (entryOf r).code = sTerm := hmatch
    have htext : (entryOf r).searchText = sTerm ++ toLowerL (' ' :: r.description) := by
      show toLowerL (r.code ++ ' ' :: r.description) = _
      rw [toLowerL, List.map_append, ← toLowerL, ← toLowerL, hmatch]
    have hall : ∀ t ∈ splitWs sTerm, containsSub (entryOf r).searchText t = true := by
      intro t ht
      rw [htext]
      exact containsSub_append_right sTerm _ t (splitWs_sub sTerm t ht)
    rw [List.filter_eq_self.mpr hall, if_pos hcode]
  refine ⟨hscore, ?_⟩
  -- the state built by loading the catalog
  have hst : (load_codes (some catalog) initState).searchIdx = catalog.map entryOf := by
    simp [load_codes, initState, buildIndexes]
  have hci : (load_codes (some catalog) initState).codeIndexL =
      catalog.map (fun x => (x.code, x)) := by
    simp [load_codes, initState, buildIndexes]
  -- the dominant scored pair
  set m : List Char × ℕ := (r.code, entryScore sTerm (splitWs sTerm) (entryOf r)) with hm
  have hpos : 0 < entryScore sTerm (splitWs sTerm) (entryOf r) := by
    rw [hscore]; omega
  have hmem : m ∈ scoredResults (catalog.map entryOf) none sTerm (splitWs sTerm) := by
    rw [scoredResults, List.mem_filterMap]
    refine ⟨entryOf r, List.mem_map_of_mem entryOf hr, ?_⟩
    show (if 0 < entryScore sTerm (splitWs sTerm) (entryOf r)
          then some ((entryOf r).code, entryScore sTerm (splitWs sTerm) (entryOf r))
          else none) = some m
    rw [if_pos hpos, hm]
    rfl
  have hmax : ∀ p ∈ scoredResults (catalog.map entryOf) none sTerm (splitWs sTerm),
      p ≠ m → p.2 < m.2 := by
    intro p hp hpm
    rw [scoredResults, List.mem_filterMap] at hp
    obtain ⟨a, ha, hfa⟩ := hp
    simp only [typeSkip, if_false, Bool.false_eq_true] at hfa
    split at hfa
    · next h0 =>
      cases hfa
      obtain ⟨x, hx, rfl⟩ := List.mem_map.mp ha
      by_cases hxc : toLowerL x.code = sTerm
      · refine absurd ?_ hpm
        rw [huniq x hx hxc, hm]
        rfl
      · have hcode : (entryOf x).code = x.code := rfl
        have hbase :
            (if toLowerL (entryOf x).code = sTerm then 100
             else if containsSub (toLowerL (entryOf x).code) sTerm then 80 else 0) ≤ 80 := by
          rw [hcode, if_neg hxc]
          split <;> omega
        have hcnt := List.length_filter_le
          (fun t => containsSub (entryOf x).searchText t) (splitWs sTerm)
        have hmul := Nat.mul_le_mul_left 10 hcnt
        have hgoal : entryScore sTerm (splitWs sTerm) (entryOf x) <
            100 + 10 * (splitWs sTerm).length := by
          rw [entryScore_eq]
          omega
        simpa [hm, hscore] using hgoal
    · simp at hfa
  have hhead := head_sortScoreDesc _ m hmem hmax
  have hlookup : lookupCode (catalog.map fun x => (x.code, x)) r.code = some r := by
    apply lookupCode_map_eq catalog r hr
    intro x hx hc
    exact huniq x hx (by rw [hc, hmatch])
  have hsearch : (search_codes (load_codes (some catalog) initState) q limit none).codes =
      ((sortScoreDesc (scoredResults (catalog.map entryOf) none sTerm
          (splitWs sTerm))).take limit).filterMap
        (fun p => (lookupCode (catalog.map fun x => (x.code, x)) p.1).map
          formatCodeSummary) := by
    rw [search_codes, if_neg (by omega)]
    rw [hs]
    simp only [hst, hci]
  rw [hsearch]
  apply head_filterMap _ _ m
  · rw [head_take _ limit hlim]
    exact hhead
  · show (lookupCode (catalog.map fun x => (x.code, x)) m.1).map formatCodeSummary = _
    rw [hm, hlookup]
    rfl

theorem search_exact_first_witness :
    2 ≤ (trimL "99213".toList).length ∧
    (search_codes (load_codes (some [rec99213]) initState)
        "99213".toList 50 none).codes.head? = some (formatCodeSummary rec99213) := by
  refine ⟨by decide, ?_⟩
  have h := search_exact_first_amended [rec99213] "99213".toList
    (trimL (toLowerL "99213".toList)) 50 rec99213 rfl (by decide) (by omega)
    (List.mem_singleton.mpr rfl) (by decide) ?_
  · exact h.2
  · intro x hx _
    simpa using hx

end S2P
